import Mathlib

/-!
Shallow embedding of the async task scheduler in
`src/schedule/async_scheduler.py` (class `ScheduledTask`, class
`AsyncScheduler`).

Timestamps (`datetime.now()`) are modelled as natural numbers.  The cron
resolver (`croniter(expr, base).get_next(datetime)`) is an external
collaborator; it is modelled as an opaque function `Resolver` mapping a
cron expression and a base timestamp to the next trigger timestamp.  A
task's work handle (`task.func` with `task.args` / `task.kwargs`) is an
opaque Python callable; its observable behaviour towards the scheduler is
modelled by a duration function (how long the body runs) and an outcome
function (whether it returns or raises), both parameters of the dispatch
model.  Captured positional/keyword arguments are kept as opaque tokens.
-/

namespace PySched

/-- `TaskStatus` enum of `async_scheduler.py` (lines 14-18). -/
inductive TaskStatus where
  | pending
  | running
  | completed
  | failed
deriving DecidableEq, Repr

/-- Result of one invocation of a task body: the Python call either
returns normally (`success`) or raises an exception caught by
`run_task`'s `except` branch (`failure`). -/
inductive Outcome where
  | success
  | failure
deriving DecidableEq, Repr

/-- The external cron resolver: `croniter(expr, base).get_next(datetime)`,
as a function from the cron expression and the base timestamp to the next
trigger timestamp. -/
def Resolver : Type := String → Nat → Nat

/-- The `ScheduledTask` dataclass (lines 21-35).  `func` is an opaque
callable; the fields derived from it that the scheduler reads are kept
(`is_async` from `inspect.iscoroutinefunction`), and `args` / `kwargs`
are opaque captured tokens. -/
structure ScheduledTask where
  name : String
  cron_expression : String
  is_async : Bool := false
  args : List String := []
  kwargs : List (String × String) := []
  retries : Nat := 0
  max_retries : Nat := 3
  retry_delay : Nat := 60
  last_run : Option Nat := none
  next_run : Option Nat := none
  status : TaskStatus := TaskStatus.pending
  error_count : Nat := 0
deriving DecidableEq, Repr

/-- `ScheduledTask.update_next_run` (lines 41-45):
`base_time = self.last_run or datetime.now()`;
`self.next_run = croniter(self.cron_expression, base_time).get_next(...)`.
`now` is the value of `datetime.now()` at the call. -/
def update_next_run (res : Resolver) (now : Nat) (t : ScheduledTask) :
    ScheduledTask :=
  let base_time := t.last_run.getD now
  { t with next_run := some (res t.cron_expression base_time) }

/-- `ScheduledTask.should_run` (lines 47-51): `False` when `next_run` is
`None`, otherwise `datetime.now() >= next_run`. -/
def should_run (now : Nat) (t : ScheduledTask) : Bool :=
  match t.next_run with
  | none => false
  | some nr => decide (now ≥ nr)

/-- Construction of a `ScheduledTask` including `__post_init__`
(lines 37-39): `is_async` is recomputed from the callable and
`update_next_run` runs with `last_run = None`, so the first `next_run`
is resolved from the registration-time clock. -/
def mkScheduledTask (res : Resolver) (now : Nat) (name cron : String)
    (is_async : Bool) (args : List String)
    (kwargs : List (String × String)) : ScheduledTask :=
  update_next_run res now
    { name := name, cron_expression := cron, is_async := is_async,
      args := args, kwargs := kwargs }

/-- The registry `self.tasks : Dict[str, ScheduledTask]` as an
association list with unique keys in insertion order. -/
def Registry : Type := List (String × ScheduledTask)

/-- Python `dict` assignment `self.tasks[task_name] = task`: replaces an
existing binding in place, otherwise appends. -/
def dictInsert (k : String) (v : ScheduledTask) :
    List (String × ScheduledTask) → List (String × ScheduledTask)
  | [] => [(k, v)]
  | (k1, v1) :: rest =>
      if k1 = k then (k, v) :: rest else (k1, v1) :: dictInsert k v rest

/-- Python `dict` lookup `self.tasks[name]`. -/
def dictGet (k : String) :
    List (String × ScheduledTask) → Option ScheduledTask
  | [] => none
  | (k1, v1) :: rest => if k1 = k then some v1 else dictGet k rest

/-- `AsyncScheduler.schedule` decorator path (lines 63-90): builds a
`ScheduledTask` with `task_name = name or func.__name__` and stores it
with `self.tasks[task_name] = task` (no duplicate check).  The decorator
passes no `args`/`kwargs`, so the dataclass defaults (empty) apply. -/
def schedule_register (res : Resolver) (now : Nat) (cron : String)
    (name : Option String) (funcName : String) (is_async : Bool)
    (tasks : List (String × ScheduledTask)) :
    List (String × ScheduledTask) :=
  let task_name := name.getD funcName
  dictInsert task_name
    (mkScheduledTask res now task_name cron is_async [] []) tasks

/-- `AsyncScheduler.add_task` (lines 92-108): same construction, with the
caller-supplied `args`/`kwargs` captured, stored with
`self.tasks[task_name] = task` (no duplicate check). -/
def add_task (res : Resolver) (now : Nat) (cron : String)
    (name : Option String) (funcName : String) (is_async : Bool)
    (args : List String) (kwargs : List (String × String))
    (tasks : List (String × ScheduledTask)) :
    List (String × ScheduledTask) :=
  let task_name := name.getD funcName
  dictInsert task_name
    (mkScheduledTask res now task_name cron is_async args kwargs) tasks

/-- First statement of `run_task` (lines 112-113): under the task lock,
`task.status = TaskStatus.RUNNING`. -/
def markRunning (t : ScheduledTask) : ScheduledTask :=
  { t with status := TaskStatus.running }

/-- The state update `run_task` performs once the body finished
(lines 128-154), at clock value `now` (the `datetime.now()` of that
moment).  On success: status `COMPLETED`, `last_run = now`,
`error_count = 0`, `retries = 0`, `update_next_run` (whose base is the
just-written `last_run`).  On exception: status `FAILED`,
`error_count += 1`; if `retries < max_retries` then `retries += 1` and
`next_run = now + retry_delay`, else `retries = 0` and
`update_next_run` (whose base is the untouched `last_run`, or `now`
when absent). -/
def run_task_update (res : Resolver) (now : Nat) (o : Outcome)
    (t : ScheduledTask) : ScheduledTask :=
  match o with
  | Outcome.success =>
      let t1 := { t with status := TaskStatus.completed,
                         last_run := some now,
                         error_count := 0,
                         retries := 0 }
      update_next_run res now t1
  | Outcome.failure =>
      let t1 := { t with status := TaskStatus.failed,
                         error_count := t.error_count + 1 }
      if t1.retries < t1.max_retries then
        { t1 with retries := t1.retries + 1,
                  next_run := some (now + t1.retry_delay) }
      else
        update_next_run res now { t1 with retries := 0 }

/-- The due-scan guard of `process_tasks` (line 165):
`task.should_run() and task.status != TaskStatus.RUNNING`. -/
def taskGuard (now : Nat) (t : ScheduledTask) : Bool :=
  should_run now t && decide (t.status ≠ TaskStatus.running)

/-- `tasks_to_run` built under the lock (lines 161-166): the registry
entries passing the due-scan guard. -/
def dueTasks (now : Nat) (tasks : List (String × ScheduledTask)) :
    List (String × ScheduledTask) :=
  tasks.filter (fun p => taskGuard now p.2)

/-- A duration model for task bodies: how many time units the body of
the named task takes when started at a given clock value. -/
def DurModel : Type := String → Nat → Nat

/-- An outcome model for task bodies: whether the named task's
invocation finishing at a given clock value returned or raised. -/
def OutModel : Type := String → Nat → Outcome

/-- Registry contents after one tick of `process_tasks` started at clock
`now`: every entry selected by the due-scan is replaced by the result of
its `run_task` (marked `RUNNING`, body runs for its duration, final
update at the finish clock); every other entry is untouched.  The
`asyncio.gather` at lines 170-173 awaits all of these before the loop
continues. -/
def tickTasks (res : Resolver) (dur : DurModel) (outc : OutModel)
    (now : Nat) (tasks : List (String × ScheduledTask)) :
    List (String × ScheduledTask) :=
  tasks.map (fun p =>
    if taskGuard now p.2 then
      let finish := now + dur p.1 now
      (p.1, run_task_update res finish (outc p.1 finish) (markRunning p.2))
    else p)

/-- How long the `await asyncio.gather(...)` of one tick takes: the
selected invocations run concurrently, so the batch completes when the
longest selected body does (0 when nothing was selected and the gather
is skipped). -/
def batchDuration (dur : DurModel) (now : Nat)
    (tasks : List (String × ScheduledTask)) : Nat :=
  ((dueTasks now tasks).map (fun p => dur p.1 now)).foldr max 0

/-- Scheduler state observed at the top of the `while` loop of
`process_tasks`: the clock value of the imminent due-scan and the
registry. -/
structure SchedState where
  now : Nat
  tasks : List (String × ScheduledTask)

/-- One iteration of the `while` loop of `process_tasks`
(lines 158-176): scan at `s.now`, `await asyncio.gather` of the selected
runs (taking `batchDuration`), then `await asyncio.sleep(1)`; the next
due-scan therefore happens at `s.now + batchDuration + 1`. -/
def tick (res : Resolver) (dur : DurModel) (outc : OutModel)
    (s : SchedState) : SchedState :=
  { now := s.now + batchDuration dur s.now s.tasks + 1,
    tasks := tickTasks res dur outc s.now s.tasks }

/-- One launched invocation of a task, for stating temporal properties:
its task name, the clock at which `run_task` started (and marked the
task `RUNNING`), and the clock at which the body finished (after which
the status is `COMPLETED`/`FAILED`). -/
structure Invocation where
  name : String
  start : Nat
  finish : Nat
deriving DecidableEq, Repr

/-- The invocations launched by the tick scanning at clock `now`. -/
def tickInvocations (dur : DurModel) (now : Nat)
    (tasks : List (String × ScheduledTask)) : List Invocation :=
  (dueTasks now tasks).map (fun p =>
    { name := p.1, start := now, finish := now + dur p.1 now })

/-- All invocations launched during `n` iterations of the
`process_tasks` loop starting from state `s`. -/
def traceInvocations (res : Resolver) (dur : DurModel) (outc : OutModel) :
    Nat → SchedState → List Invocation
  | 0, _ => []
  | n + 1, s =>
      tickInvocations dur s.now s.tasks ++
        traceInvocations res dur outc n (tick res dur outc s)

/-! ### Helper lemmas: the three completion paths of `run_task` as record
equations. -/

theorem run_success_eq (res : Resolver) (now : Nat) (t : ScheduledTask) :
    run_task_update res now Outcome.success t =
      { t with status := TaskStatus.completed, last_run := some now,
               error_count := 0, retries := 0,
               next_run := some (res t.cron_expression now) } := rfl

theorem run_fail_retry_eq (res : Resolver) (now : Nat) (t : ScheduledTask)
    (h : t.retries < t.max_retries) :
    run_task_update res now Outcome.failure t =
      { t with status := TaskStatus.failed,
               error_count := t.error_count + 1,
               retries := t.retries + 1,
               next_run := some (now + t.retry_delay) } := by
  simp only [run_task_update]
  rw [if_pos h]

theorem run_fail_exhaust_eq (res : Resolver) (now : Nat) (t : ScheduledTask)
    (h : ¬ t.retries < t.max_retries) :
    run_task_update res now Outcome.failure t =
      { t with status := TaskStatus.failed,
               error_count := t.error_count + 1,
               retries := 0,
               next_run :=
                 some (res t.cron_expression (t.last_run.getD now)) } := by
  simp only [run_task_update]
  rw [if_neg h]
  rfl

/-- A common concrete resolver for examples: the next trigger is one
minute after the base timestamp. -/
def cronMinutely : Resolver := fun _ t => t + 60

/-- C4 (amended): a successful invocation does not leave `error_count`
unchanged — `run_task` line 130 resets it to 0 — while a failed
invocation increments it by one; `error_count` therefore counts the
failures since the last success, not lifetime failures. -/
theorem error_count_reset_on_success (res : Resolver) (now : Nat)
    (t : ScheduledTask) :
    (run_task_update res now Outcome.success t).error_count = 0 ∧
    (run_task_update res now Outcome.failure t).error_count =
      t.error_count + 1 := by
  refine ⟨by rw [run_success_eq], ?_⟩
  by_cases h : t.retries < t.max_retries
  · rw [run_fail_retry_eq res now t h]
  · rw [run_fail_exhaust_eq res now t h]

/-- C4 counterexample: a task with `error_count = 5` whose invocation
succeeds ends with `error_count = 0`, so a successful invocation does
not leave `error_count` unchanged and `error_count` is not monotone. -/
theorem success_error_count_cex :
    (run_task_update cronMinutely 10 Outcome.success
        { name := "job", cron_expression := "m", error_count := 5 }
      ).error_count ≠
      ({ name := "job", cron_expression := "m", error_count := 5 :
          ScheduledTask }).error_count := by
  decide

/-- C9 (amended): `last_run` is written only by the success branch of
`run_task` (line 129); a failed invocation leaves `last_run` untouched,
so `last_run` records the most recent successful invocation, not the
most recent attempt. -/
theorem last_run_set_only_on_success (res : Resolver) (now : Nat)
    (t : ScheduledTask) :
    (run_task_update res now Outcome.success t).last_run = some now ∧
    (run_task_update res now Outcome.failure t).last_run = t.last_run := by
  refine ⟨by rw [run_success_eq], ?_⟩
  by_cases h : t.retries < t.max_retries
  · rw [run_fail_retry_eq res now t h]
  · rw [run_fail_exhaust_eq res now t h]

/-- C9 counterexample: a never-run task fails its first invocation at
time 10; afterwards `last_run` is still `none`, not the timestamp of
that attempt. -/
theorem failure_leaves_last_run_cex :
    (run_task_update cronMinutely 10 Outcome.failure
        { name := "job", cron_expression := "m" }).last_run ≠ some 10 := by
  decide

/-- C7 (amended): after an invocation finishes its status is
`COMPLETED` (success) or `FAILED` (failure) and `run_task` never sets it
back to `PENDING`; these post-run statuses persist between invocations,
and the due-scan guard (which only excludes `RUNNING`) still admits
them, so the task stays eligible. -/
theorem post_run_status_persists (res : Resolver) (now now2 : Nat)
    (t : ScheduledTask) :
    (run_task_update res now Outcome.success t).status =
      TaskStatus.completed ∧
    (run_task_update res now Outcome.failure t).status =
      TaskStatus.failed ∧
    (run_task_update res now Outcome.success t).status ≠
      TaskStatus.pending ∧
    (run_task_update res now Outcome.failure t).status ≠
      TaskStatus.pending ∧
    taskGuard now2 (run_task_update res now Outcome.success t) =
      should_run now2 (run_task_update res now Outcome.success t) ∧
    taskGuard now2 (run_task_update res now Outcome.failure t) =
      should_run now2 (run_task_update res now Outcome.failure t) := by
  have hs : (run_task_update res now Outcome.success t).status =
      TaskStatus.completed := by rw [run_success_eq]
  have hf : (run_task_update res now Outcome.failure t).status =
      TaskStatus.failed := by
    by_cases h : t.retries < t.max_retries
    · rw [run_fail_retry_eq res now t h]
    · rw [run_fail_exhaust_eq res now t h]
  refine ⟨hs, hf, ?_, ?_, ?_, ?_⟩
  · rw [hs]; intro hc; cases hc
  · rw [hf]; intro hc; cases hc
  · simp [taskGuard, hs]
  · simp [taskGuard, hf]

/-- C7 counterexample: a fresh task's successful run at time 10 leaves
its status `COMPLETED`; the status does not return to `PENDING`. -/
theorem status_after_run_not_pending_cex :
    (run_task_update cronMinutely 10 Outcome.success
        { name := "job", cron_expression := "m" }).status ≠
      TaskStatus.pending := by
  decide

/-- A task whose retry budget is already exhausted (`retries` has
reached `max_retries`) and which has succeeded once in the past. -/
def exhaustedTask : ScheduledTask :=
  { name := "job", cron_expression := "m", retries := 3,
    last_run := some 0 }

/-- C3 (amended): when the retry budget is exhausted, `run_task` resets
`retry_count` to 0 and recomputes `next_run` via `update_next_run`,
whose base timestamp is `last_run` when one exists and the current time
only for a task that has never succeeded — not unconditionally the
current time as the claim states. -/
theorem exhausted_failure_resets_and_reschedules (res : Resolver)
    (now : Nat) (t : ScheduledTask) (h : ¬ t.retries < t.max_retries) :
    (run_task_update res now Outcome.failure t).retries = 0 ∧
    (run_task_update res now Outcome.failure t).next_run =
      some (res t.cron_expression (t.last_run.getD now)) := by
  rw [run_fail_exhaust_eq res now t h]
  exact ⟨rfl, rfl⟩

/-- C3 witness: a task with `retries = 3 = max_retries` and
`last_run = some 0` failing at time 1000. -/
theorem exhausted_failure_resets_witness :
    (run_task_update cronMinutely 1000 Outcome.failure
        exhaustedTask).retries = 0 ∧
    (run_task_update cronMinutely 1000 Outcome.failure
        exhaustedTask).next_run =
      some (cronMinutely exhaustedTask.cron_expression
        (exhaustedTask.last_run.getD 1000)) :=
  exhausted_failure_resets_and_reschedules cronMinutely 1000
    exhaustedTask (by decide)

/-- C3 counterexample: the same task failing at time 1000 with the
every-minute resolver gets `next_run = some 60` (the next occurrence
after `last_run = 0`), not the next occurrence after the current time
1000 (which would be 1060). -/
theorem exhausted_next_run_base_cex :
    (run_task_update cronMinutely 1000 Outcome.failure
        exhaustedTask).next_run ≠
      some (cronMinutely exhaustedTask.cron_expression 1000) := by
  decide

/-- A sequence of always-failing invocations at the given clock values,
each applying `run_task`'s failure update to the task state. -/
def runFailures (res : Resolver) (times : List Nat)
    (t : ScheduledTask) : ScheduledTask :=
  times.foldl (fun acc n => run_task_update res n Outcome.failure acc) t

/-- C5: for a task with `max_retries = 2`, `retries = 0`,
`error_count = 0` whose invocations always fail — first failure:
`retries = 1`, `next_run = now + retry_delay`; second failure:
`retries = 2`, `next_run = now + retry_delay`; third failure: budget
exhausted, `retries` reset to 0 and `next_run` recomputed from the
schedule; `error_count` reaches 3. -/
theorem always_failing_max2_sequence (res : Resolver) (n1 n2 n3 : Nat)
    (t : ScheduledTask) (hm : t.max_retries = 2) (hr : t.retries = 0)
    (he : t.error_count = 0) :
    (runFailures res [n1] t).retries = 1 ∧
    (runFailures res [n1] t).next_run = some (n1 + t.retry_delay) ∧
    (runFailures res [n1, n2] t).retries = 2 ∧
    (runFailures res [n1, n2] t).next_run = some (n2 + t.retry_delay) ∧
    (runFailures res [n1, n2, n3] t).retries = 0 ∧
    (runFailures res [n1, n2, n3] t).next_run =
      some (res t.cron_expression (t.last_run.getD n3)) ∧
    (runFailures res [n1, n2, n3] t).error_count = 3 := by
  have h1 : run_task_update res n1 Outcome.failure t =
      { t with status := TaskStatus.failed,
               error_count := t.error_count + 1,
               retries := t.retries + 1,
               next_run := some (n1 + t.retry_delay) } :=
    run_fail_retry_eq res n1 t (by rw [hm, hr]; exact Nat.zero_lt_two)
  have h2 : run_task_update res n2 Outcome.failure
        (run_task_update res n1 Outcome.failure t) =
      { t with status := TaskStatus.failed,
               error_count := t.error_count + 2,
               retries := t.retries + 2,
               next_run := some (n2 + t.retry_delay) } := by
    rw [h1, run_fail_retry_eq _ n2 _ (by simp [hm, hr])]
  have h3 : runFailures res [n1, n2, n3] t =
      { t with status := TaskStatus.failed,
               error_count := t.error_count + 3,
               retries := 0,
               next_run :=
                 some (res t.cron_expression (t.last_run.getD n3)) } := by
    show run_task_update res n3 Outcome.failure
        (run_task_update res n2 Outcome.failure
          (run_task_update res n1 Outcome.failure t)) = _
    rw [h2, run_fail_exhaust_eq _ n3 _ (by simp [hm, hr])]
  refine ⟨?_, ?_, ?_, ?_, ?_, ?_, ?_⟩
  · show (run_task_update res n1 Outcome.failure t).retries = 1
    rw [h1]; simp [hr]
  · show (run_task_update res n1 Outcome.failure t).next_run = _
    rw [h1]
  · show (run_task_update res n2 Outcome.failure
        (run_task_update res n1 Outcome.failure t)).retries = 2
    rw [h2]; simp [hr]
  · show (run_task_update res n2 Outcome.failure
        (run_task_update res n1 Outcome.failure t)).next_run = _
    rw [h2]
  · rw [h3]
  · rw [h3]
  · rw [h3]; simp [he]

/-- C5 witness: a fresh task with `max_retries = 2`, `retry_delay = 5`
failing at times 10, 20 and 30. -/
theorem always_failing_max2_sequence_witness :
    (runFailures cronMinutely [10]
        { name := "job", cron_expression := "m", max_retries := 2,
          retry_delay := 5 }).retries = 1 ∧
    (runFailures cronMinutely [10]
        { name := "job", cron_expression := "m", max_retries := 2,
          retry_delay := 5 }).next_run = some (10 + 5) ∧
    (runFailures cronMinutely [10, 20]
        { name := "job", cron_expression := "m", max_retries := 2,
          retry_delay := 5 }).retries = 2 ∧
    (runFailures cronMinutely [10, 20]
        { name := "job", cron_expression := "m", max_retries := 2,
          retry_delay := 5 }).next_run = some (20 + 5) ∧
    (runFailures cronMinutely [10, 20, 30]
        { name := "job", cron_expression := "m", max_retries := 2,
          retry_delay := 5 }).retries = 0 ∧
    (runFailures cronMinutely [10, 20, 30]
        { name := "job", cron_expression := "m", max_retries := 2,
          retry_delay := 5 }).next_run =
      some (cronMinutely
        ({ name := "job", cron_expression := "m", max_retries := 2,
           retry_delay := 5 : ScheduledTask }).cron_expression
        (({ name := "job", cron_expression := "m", max_retries := 2,
            retry_delay := 5 : ScheduledTask }).last_run.getD 30)) ∧
    (runFailures cronMinutely [10, 20, 30]
        { name := "job", cron_expression := "m", max_retries := 2,
          retry_delay := 5 }).error_count = 3 :=
  always_failing_max2_sequence cronMinutely 10 20 30
    { name := "job", cron_expression := "m", max_retries := 2,
      retry_delay := 5 } rfl rfl rfl

/-- C10: a task whose `next_run` is `None` is never due: `should_run`
returns `False` without comparing the clock against `next_run`, and the
due-scan of `process_tasks` therefore never selects such a task. -/
theorem absent_next_run_never_selected (now : Nat) (t : ScheduledTask)
    (h : t.next_run = none) :
    should_run now t = false ∧
    ∀ (tasks : List (String × ScheduledTask)) (k : String),
      (k, t) ∉ dueTasks now tasks := by
  have hs : should_run now t = false := by
    unfold should_run
    rw [h]
  refine ⟨hs, ?_⟩
  intro tasks k hmem
  have hg : taskGuard now t = true :=
    (List.mem_filter.mp hmem).2
  rw [taskGuard, hs] at hg
  exact Bool.noConfusion hg

/-- C10 witness: a fresh record whose `next_run` field is `none`, at
clock value 5. -/
theorem absent_next_run_never_selected_witness :
    should_run 5 { name := "job", cron_expression := "m" } = false ∧
    ∀ (tasks : List (String × ScheduledTask)) (k : String),
      (k, { name := "job", cron_expression := "m" }) ∉ dueTasks 5 tasks :=
  absent_next_run_never_selected 5
    { name := "job", cron_expression := "m" } rfl

/-! ### Registry lemmas for registration. -/

theorem dictGet_insert_self (k : String) (v : ScheduledTask) :
    ∀ l : List (String × ScheduledTask),
      dictGet k (dictInsert k v l) = some v
  | [] => by simp [dictInsert, dictGet]
  | (k1, v1) :: rest => by
      by_cases h : k1 = k
      · simp [dictInsert, dictGet, h]
      · simp [dictInsert, dictGet, h, dictGet_insert_self k v rest]

theorem dictGet_insert_other (k k2 : String) (v : ScheduledTask)
    (h : k2 ≠ k) :
    ∀ l : List (String × ScheduledTask),
      dictGet k2 (dictInsert k v l) = dictGet k2 l
  | [] => by simp [dictInsert, dictGet, Ne.symm h]
  | (k1, v1) :: rest => by
      by_cases h1 : k1 = k
      · subst h1
        simp [dictInsert, dictGet, Ne.symm h]
      · by_cases h2 : k1 = k2
        · subst h2
          simp [dictInsert, dictGet, h1]
        · simp [dictInsert, dictGet, h1, h2,
            dictGet_insert_other k k2 v h rest]

/-- C6: both registration paths — the `schedule` decorator and
`add_task` — store the new record with `self.tasks[task_name] = task`
and perform no duplicate check, so registering a name already present
deterministically overwrites the existing record in both cases (one
consistent policy, no `DuplicateTaskError` anywhere), and no other
entry of the registry is affected. -/
theorem duplicate_registration_overwrites (res : Resolver) (now : Nat)
    (cron : String) (name : Option String) (funcName : String)
    (is_async : Bool) (args : List String)
    (kwargs : List (String × String))
    (r : List (String × ScheduledTask)) :
    dictGet (name.getD funcName)
        (schedule_register res now cron name funcName is_async r) =
      some (mkScheduledTask res now (name.getD funcName) cron
        is_async [] []) ∧
    dictGet (name.getD funcName)
        (add_task res now cron name funcName is_async args kwargs r) =
      some (mkScheduledTask res now (name.getD funcName) cron
        is_async args kwargs) ∧
    ∀ k, k ≠ name.getD funcName →
      dictGet k (schedule_register res now cron name funcName
          is_async r) = dictGet k r ∧
      dictGet k (add_task res now cron name funcName is_async args
          kwargs r) = dictGet k r := by
  refine ⟨dictGet_insert_self _ _ r, dictGet_insert_self _ _ r, ?_⟩
  intro k hk
  exact ⟨dictGet_insert_other _ k _ hk r,
    dictGet_insert_other _ k _ hk r⟩

/-! ### Lemmas about the dispatch-loop model. -/

theorem le_foldr_max {a : Nat} :
    ∀ {l : List Nat}, a ∈ l → a ≤ l.foldr max 0
  | [], h => absurd h (List.not_mem_nil a)
  | b :: l, h => by
      rcases List.mem_cons.mp h with rfl | h1
      · exact le_max_left _ _
      · exact Nat.le_trans (le_foldr_max h1) (le_max_right _ _)

theorem tickTasks_cons (res : Resolver) (dur : DurModel) (outc : OutModel)
    (now : Nat) (p : String × ScheduledTask)
    (rest : List (String × ScheduledTask)) :
    tickTasks res dur outc now (p :: rest) =
      (if taskGuard now p.2 then
        (p.1, run_task_update res (now + dur p.1 now)
          (outc p.1 (now + dur p.1 now)) (markRunning p.2))
       else p) :: tickTasks res dur outc now rest := rfl

theorem tickTasks_keys (res : Resolver) (dur : DurModel) (outc : OutModel)
    (now : Nat) :
    ∀ l : List (String × ScheduledTask),
      (tickTasks res dur outc now l).map Prod.fst = l.map Prod.fst
  | [] => rfl
  | p :: rest => by
      have ih := tickTasks_keys res dur outc now rest
      rw [tickTasks_cons, List.map_cons, List.map_cons, ih]
      by_cases h : taskGuard now p.2 = true
      · rw [if_pos h]
      · rw [if_neg h]

theorem tickInvocations_bounds (dur : DurModel) (now : Nat)
    (l : List (String × ScheduledTask)) (i : Invocation)
    (h : i ∈ tickInvocations dur now l) :
    i.start = now ∧ i.finish ≤ now + batchDuration dur now l := by
  unfold tickInvocations at h
  rcases List.mem_map.mp h with ⟨p, hp, rfl⟩
  refine ⟨rfl, ?_⟩
  show now + dur p.1 now ≤ now + batchDuration dur now l
  apply Nat.add_le_add_left
  exact le_foldr_max (List.mem_map.mpr ⟨p, hp, rfl⟩)

theorem traceInvocations_start_le (res : Resolver) (dur : DurModel)
    (outc : OutModel) :
    ∀ (n : Nat) (s : SchedState) (i : Invocation),
      i ∈ traceInvocations res dur outc n s → s.now ≤ i.start
  | 0, _, i, h => absurd h (List.not_mem_nil i)
  | n + 1, s, i, h => by
      unfold traceInvocations at h
      rcases List.mem_append.mp h with h1 | h2
      · exact Nat.le_of_eq (tickInvocations_bounds dur s.now s.tasks i h1).1.symm
      · have hrec := traceInvocations_start_le res dur outc n
          (tick res dur outc s) i h2
        have h3 : (tick res dur outc s).now =
            s.now + batchDuration dur s.now s.tasks + 1 := rfl
        omega

theorem tickInvocations_names_nodup (dur : DurModel) (now : Nat)
    (l : List (String × ScheduledTask))
    (hnodup : (l.map Prod.fst).Nodup) :
    (tickInvocations dur now l).Pairwise (fun i j => i.name ≠ j.name) := by
  unfold tickInvocations
  rw [List.pairwise_map]
  have hdue : ((dueTasks now l).map Prod.fst).Nodup :=
    List.Nodup.sublist (List.Sublist.map Prod.fst (List.filter_sublist l))
      hnodup
  exact (List.pairwise_map.mp hdue)

theorem trace_no_overlap (res : Resolver) (dur : DurModel)
    (outc : OutModel) :
    ∀ (n : Nat) (s : SchedState),
      (s.tasks.map Prod.fst).Nodup →
      (traceInvocations res dur outc n s).Pairwise
        (fun i j => i.name = j.name → i.finish ≤ j.start)
  | 0, _, _ => List.Pairwise.nil
  | n + 1, s, hnodup => by
      unfold traceInvocations
      rw [List.pairwise_append]
      refine ⟨?_, ?_, ?_⟩
      · exact (tickInvocations_names_nodup dur s.now s.tasks hnodup).imp
          (fun hne heq => absurd heq hne)
      · apply trace_no_overlap res dur outc n
        show ((tickTasks res dur outc s.now s.tasks).map Prod.fst).Nodup
        rw [tickTasks_keys]
        exact hnodup
      · intro i hi j hj _
        have h1 := (tickInvocations_bounds dur s.now s.tasks i hi).2
        have h2 := traceInvocations_start_le res dur outc n
          (tick res dur outc s) j hj
        have h3 : (tick res dur outc s).now =
            s.now + batchDuration dur s.now s.tasks + 1 := rfl
        omega

/-- C1: the due-scan guard of `process_tasks` never selects a task whose
status is `RUNNING`, and in the dispatch model (where each tick awaits
its `asyncio.gather` before the next scan) the invocation intervals of
any one task name never overlap: an earlier invocation has finished
before a later one starts, so at most one invocation of a task is in
flight (`RUNNING`) at any time, whatever the body durations. -/
theorem no_concurrent_runs_of_same_task (res : Resolver) (dur : DurModel)
    (outc : OutModel) (n : Nat) (s : SchedState)
    (hnodup : (s.tasks.map Prod.fst).Nodup) :
    (∀ p, p ∈ dueTasks s.now s.tasks →
      p.2.status ≠ TaskStatus.running) ∧
    (traceInvocations res dur outc n s).Pairwise
      (fun i j => i.name = j.name → i.finish ≤ j.start) := by
  constructor
  · intro p hp
    have hg : taskGuard s.now p.2 = true := by
      have := List.mem_filter.mp hp
      exact this.2
    have hd : decide (p.2.status ≠ TaskStatus.running) = true :=
      ((Bool.and_eq_true _ _).mp hg).2
    exact of_decide_eq_true hd
  · exact trace_no_overlap res dur outc n s hnodup

/-- A resolver for the dispatch examples: next trigger is one time unit
after the base timestamp. -/
def exRes : Resolver := fun _ t => t + 1

/-- Body durations for the dispatch examples: the task named `slow`
takes 5 time units, every other body returns immediately. -/
def exDur : DurModel := fun k _ => if k = "slow" then 5 else 0

/-- Body outcomes for the dispatch examples: every invocation
succeeds. -/
def exOut : OutModel := fun _ _ => Outcome.success

/-- A long-running registered task, due at time 0. -/
def slowTask : ScheduledTask :=
  { name := "slow", cron_expression := "e", next_run := some 0 }

/-- A quick registered task, due at time 0. -/
def fastTask : ScheduledTask :=
  { name := "fast", cron_expression := "e", next_run := some 0 }

/-- Dispatch example: both tasks registered, clock at 0. -/
def exState : SchedState :=
  { now := 0, tasks := [("slow", slowTask), ("fast", fastTask)] }

/-- C1 witness: the two-task dispatch example traced for two ticks. -/
theorem no_concurrent_runs_witness :
    (∀ p, p ∈ dueTasks exState.now exState.tasks →
      p.2.status ≠ TaskStatus.running) ∧
    (traceInvocations exRes exDur exOut 2 exState).Pairwise
      (fun i j => i.name = j.name → i.finish ≤ j.start) :=
  no_concurrent_runs_of_same_task exRes exDur exOut 2 exState (by decide)

/-- C2 (amended): within one tick the selected due tasks are launched
concurrently with each other, but `process_tasks` awaits their joint
completion (`await asyncio.gather`) and only then sleeps and performs
the next due-scan; the next scan happens `batchDuration + 1` after the
current one, and every invocation of a tick finishes strictly before
any invocation of the following tick starts — so a body running longer
than one tick interval delays subsequent due-scans and the execution of
other due tasks. -/
theorem dispatch_awaits_gather_before_next_scan (res : Resolver)
    (dur : DurModel) (outc : OutModel) (s : SchedState)
    (i j : Invocation) (hi : i ∈ tickInvocations dur s.now s.tasks)
    (hj : j ∈ tickInvocations dur (tick res dur outc s).now
      (tick res dur outc s).tasks) :
    (tick res dur outc s).now =
      s.now + batchDuration dur s.now s.tasks + 1 ∧
    i.finish < j.start := by
  refine ⟨rfl, ?_⟩
  have h1 := (tickInvocations_bounds dur s.now s.tasks i hi).2
  have h2 := (tickInvocations_bounds dur (tick res dur outc s).now
    (tick res dur outc s).tasks j hj).1
  have h3 : (tick res dur outc s).now =
      s.now + batchDuration dur s.now s.tasks + 1 := rfl
  omega

/-- C2 witness: the `fast` task's invocations in the first and second
ticks of the dispatch example. -/
theorem dispatch_awaits_gather_witness :
    (tick exRes exDur exOut exState).now =
      exState.now + batchDuration exDur exState.now exState.tasks + 1 ∧
    ({ name := "fast", start := 0, finish := 0 : Invocation }).finish <
      ({ name := "fast", start := 6, finish := 6 : Invocation }).start :=
  dispatch_awaits_gather_before_next_scan exRes exDur exOut exState
    { name := "fast", start := 0, finish := 0 }
    { name := "fast", start := 6, finish := 6 }
    (by decide) (by decide)

/-- C2 counterexample: with a 5-unit `slow` body and an instantaneous
`fast` body both due at time 0, the due-scan after the first tick
happens at time 6, not at time 1 as a non-waiting loop would give:
`fast` became due again at time 1 (its recomputed `next_run` is 1) yet
its second invocation only starts at time 6 — the loop waited for
`slow`, delaying another due task. -/
theorem dispatch_loop_waits_cex :
    (tick exRes exDur exOut exState).now ≠ exState.now + 1 ∧
    traceInvocations exRes exDur exOut 2 exState =
      [{ name := "slow", start := 0, finish := 5 },
       { name := "fast", start := 0, finish := 0 },
       { name := "slow", start := 6, finish := 11 },
       { name := "fast", start := 6, finish := 6 }] ∧
    (dictGet "fast" (tick exRes exDur exOut exState).tasks).map
      (fun u => u.next_run) = some (some 1) := by
  decide

/-- The timestamp `run_task` stores into `next_run` when an invocation
finishes at clock `finish` with outcome `o`: the resolver's next
occurrence after `last_run` (success writes `last_run := finish`
first), or `finish + retry_delay` on a failure with budget left. -/
def recomputedNextRun (res : Resolver) (finish : Nat) (o : Outcome)
    (t : ScheduledTask) : Nat :=
  match o with
  | Outcome.success => res t.cron_expression finish
  | Outcome.failure =>
      if t.retries < t.max_retries then finish + t.retry_delay
      else res t.cron_expression (t.last_run.getD finish)

theorem run_task_next_run (res : Resolver) (now : Nat) (o : Outcome)
    (t : ScheduledTask) :
    (run_task_update res now o t).next_run =
      some (recomputedNextRun res now o t) := by
  cases o
  · rw [run_success_eq]
    rfl
  · by_cases h : t.retries < t.max_retries
    · rw [run_fail_retry_eq res now t h]
      simp [recomputedNextRun, h]
    · rw [run_fail_exhaust_eq res now t h]
      simp [recomputedNextRun, h]

theorem dictGet_tickTasks (res : Resolver) (dur : DurModel)
    (outc : OutModel) (now : Nat) :
    ∀ (l : List (String × ScheduledTask)) (k : String)
      (t : ScheduledTask),
      (l.map Prod.fst).Nodup → (k, t) ∈ l → taskGuard now t = true →
      dictGet k (tickTasks res dur outc now l) =
        some (run_task_update res (now + dur k now)
          (outc k (now + dur k now)) (markRunning t))
  | [], _, _, _, hmem, _ => absurd hmem (List.not_mem_nil _)
  | (k1, t1) :: rest, k, t, hnodup, hmem, hdue => by
      have hnd : k1 ∉ rest.map Prod.fst ∧ (rest.map Prod.fst).Nodup := by
        rw [List.map_cons] at hnodup
        exact List.nodup_cons.mp hnodup
      rcases List.mem_cons.mp hmem with heq | hmem1
      · obtain ⟨rfl, rfl⟩ := Prod.mk.injEq k t k1 t1 |>.mp heq
        rw [tickTasks_cons]
        rw [if_pos hdue]
        simp [dictGet]
      · have hk1 : k1 ≠ k := by
          intro heq1
          subst heq1
          exact hnd.1 (List.mem_map.mpr ⟨(k1, t), hmem1, rfl⟩)
        have ih := dictGet_tickTasks res dur outc now rest k t
          hnd.2 hmem1 hdue
        rw [tickTasks_cons]
        by_cases hg : taskGuard now t1 = true
        · rw [if_pos hg]
          simpa [dictGet, hk1] using ih
        · rw [if_neg hg]
          simpa [dictGet, hk1] using ih

/-- C8: a task selected by the due-scan (on the basis of its current
`next_run`) has, by the time the tick's `gather` has drained and the
next due-scan can happen, been replaced in the registry by the result
of its `run_task` — whose `next_run` field is freshly assigned on every
completion path (success, failure-with-retry, budget exhausted), so no
later selection happens on the basis of a `next_run` value that was not
recomputed in between. -/
theorem next_run_reassigned_before_reselection (res : Resolver)
    (dur : DurModel) (outc : OutModel) (s : SchedState) (k : String)
    (t : ScheduledTask) (hnodup : (s.tasks.map Prod.fst).Nodup)
    (hmem : (k, t) ∈ s.tasks) (hdue : taskGuard s.now t = true) :
    dictGet k (tick res dur outc s).tasks =
      some (run_task_update res (s.now + dur k s.now)
        (outc k (s.now + dur k s.now)) (markRunning t)) ∧
    (run_task_update res (s.now + dur k s.now)
        (outc k (s.now + dur k s.now)) (markRunning t)).next_run =
      some (recomputedNextRun res (s.now + dur k s.now)
        (outc k (s.now + dur k s.now)) (markRunning t)) :=
  ⟨dictGet_tickTasks res dur outc s.now s.tasks k t hnodup hmem hdue,
    run_task_next_run res (s.now + dur k s.now)
      (outc k (s.now + dur k s.now)) (markRunning t)⟩

/-- C8 witness: the `fast` task of the dispatch example, selected at
time 0. -/
theorem next_run_reassigned_witness :
    dictGet "fast" (tick exRes exDur exOut exState).tasks =
      some (run_task_update exRes
        (exState.now + exDur "fast" exState.now)
        (exOut "fast" (exState.now + exDur "fast" exState.now))
        (markRunning fastTask)) ∧
    (run_task_update exRes (exState.now + exDur "fast" exState.now)
        (exOut "fast" (exState.now + exDur "fast" exState.now))
        (markRunning fastTask)).next_run =
      some (recomputedNextRun exRes
        (exState.now + exDur "fast" exState.now)
        (exOut "fast" (exState.now + exDur "fast" exState.now))
        (markRunning fastTask)) :=
  next_run_reassigned_before_reselection exRes exDur exOut exState
    "fast" fastTask (by decide) (by decide) (by decide)

end PySched
